import Mathlib

/-!
Verification of the record extractor of `thghosting-data-centers`
(`src/thghosting-data-centers/src/html.rs`, function `parse_html`, with an
identical copy in `src/thghosting-data-centers/src/lib.rs`).

The extractor's input is an HTML document that the external document-model
adapter (the `scraper` crate) has already parsed into a tree; the extractor
only queries that tree through CSS-style selectors, attribute reads and
inner-markup reads.  We therefore embed the parsed tree directly as an
inductive `Node` and translate every query `parse_html` performs:

  * `document.select("div.location")`          → `locationsOf`
  * `block.select(".dc-city")`                 → `cityElemsOf`
  * `block.select("table tr")`                 → `trsOf`
  * `tr.select("td")`                          → `tdsOf`
  * `value.select("a")`                        → `aDescs`
  * `block.select(".popover-container a")`     → `popAOf`
  * `element.attr(name)`                       → `getAttr`
  * `element.inner_html()`                     → `innerHtml` (serialisation)

`Ipv4Addr::from_str` (Rust std, an external dependency of the extractor) is
modelled by `parseIpv4`: four decimal octets separated by dots, one to three
digits each, no leading zeros, each at most 255, nothing left over.
-/

/-- Node of the parsed HTML tree produced by the document-model adapter:
an element with tag name, attribute list and children, or a text node. -/
inductive Node where
  | elem (tag : String) (attrs : List (String × String)) (children : List Node)
  | text (s : String)

/-- Children of a node (a text node has none). -/
def childrenOf : Node → List Node
  | .elem _ _ c => c
  | .text _ => []

/-- Attribute lookup, `element.value().attr(name)` in the source. -/
def getAttr (n : Node) (name : String) : Option String :=
  match n with
  | .elem _ attrs _ => (attrs.find? (fun p => p.1 = name)).map Prod.snd
  | .text _ => none

/-- Split a character list at every occurrence of the separator, keeping
empty pieces; the accumulator holds the current piece reversed. -/
def splitOnCharAux (sep : Char) : List Char → List Char → List String
  | [], acc => [String.mk acc.reverse]
  | c :: cs, acc =>
      if c = sep then String.mk acc.reverse :: splitOnCharAux sep cs []
      else splitOnCharAux sep cs (c :: acc)

/-- Class list of an element: the `class` attribute split on spaces. -/
def classList (n : Node) : List String :=
  match getAttr n "class" with
  | some s => splitOnCharAux ' ' s.data []
  | none => []

/-- Does the element carry the given class? -/
def hasClass (c : String) (n : Node) : Bool :=
  (classList n).contains c

/-- Does the node have the given tag name? -/
def isTag (t : String) (n : Node) : Bool :=
  match n with
  | .elem t2 _ _ => t2 = t
  | .text _ => false

/-- Serialisation of an attribute list, as in the adapter's `inner_html`. -/
def serializeAttrs : List (String × String) → String
  | [] => ""
  | (k, v) :: rest => " " ++ k ++ "=" ++ "\"" ++ v ++ "\"" ++ serializeAttrs rest

mutual

/-- Serialisation of one node (`inner_html` applied to its parent). -/
def serializeNode : Node → String
  | .text s => s
  | .elem t attrs c =>
      "<" ++ t ++ serializeAttrs attrs ++ ">" ++ serializeNodes c ++ "</" ++ t ++ ">"

/-- Serialisation of a list of sibling nodes, in order. -/
def serializeNodes : List Node → String
  | [] => ""
  | n :: ns => serializeNode n ++ serializeNodes ns

end

/-- `element.inner_html()` of the adapter: the serialised children. -/
def innerHtml (n : Node) : String :=
  serializeNodes (childrenOf n)

mutual

/-- Collector behind the adapter's descendant-combinator selection.
`collectD anc tgt flag n` returns, in document (pre-order) position, every
element of the subtree rooted at `n` that satisfies `tgt` and has a proper
ancestor satisfying `anc` (the flag records whether such an ancestor was
already seen above `n`). -/
def collectD (anc tgt : Node → Bool) : Bool → Node → List Node
  | _, .text _ => []
  | flag, .elem t a c =>
      (if flag && tgt (.elem t a c) then [Node.elem t a c] else []) ++
        collectDL anc tgt (flag || anc (.elem t a c)) c

/-- List version of `collectD`, visiting siblings left to right. -/
def collectDL (anc tgt : Node → Bool) : Bool → List Node → List Node
  | _, [] => []
  | flag, n :: ns => collectD anc tgt flag n ++ collectDL anc tgt flag ns

end

/-- `scope.select(sel)` for a simple selector `sel`: every strict descendant
of `scope` matching the predicate, in document order. -/
def selectAllDesc (p : Node → Bool) (b : Node) : List Node :=
  collectDL (fun _ => true) p true (childrenOf b)

/-- `scope.select("anc tgt")` for a descendant-combinator selector: matching
descendants whose required ancestor may be `scope` itself or any element
below it (as in the adapter, which matches against the real tree). -/
def selectCombDesc (anc tgt : Node → Bool) (b : Node) : List Node :=
  collectDL anc tgt (anc b) (childrenOf b)

/-- `document.select("div.location")` of the source: every element of the
document that is a `div` carrying the `location` class, in document order. -/
def locationsOf (d : Node) : List Node :=
  collectD (fun _ => true) (fun n => isTag "div" n && hasClass "location" n) true d

/-- `location_element.select(".dc-city")` of the source. -/
def cityElemsOf (b : Node) : List Node :=
  selectAllDesc (fun n => hasClass "dc-city" n) b

/-- `location_element.select("table tr")` of the source. -/
def trsOf (b : Node) : List Node :=
  selectCombDesc (isTag "table") (isTag "tr") b

/-- `tr_element.select("td")` of the source. -/
def tdsOf (tr : Node) : List Node :=
  selectAllDesc (isTag "td") tr

/-- `value_element.select("a")` of the source. -/
def aDescs (v : Node) : List Node :=
  selectAllDesc (isTag "a") v

/-- `location_element.select(".popover-container a")` of the source. -/
def popAOf (b : Node) : List Node :=
  selectCombDesc (fun n => hasClass "popover-container" n) (isTag "a") b

/-- An IPv4 address, the embedding of `std::net::Ipv4Addr`. -/
structure Ipv4 where
  a : Nat
  b : Nat
  c : Nat
  d : Nat
deriving DecidableEq

/-- Read at most `n` leading decimal digits of the character list, returning
them and the rest (as `read_number` of Rust std's address parser). -/
def takeDigits : Nat → List Char → List Char × List Char
  | 0, cs => ([], cs)
  | _ + 1, [] => ([], [])
  | n + 1, c :: cs =>
      if c.isDigit then
        let p := takeDigits n cs
        (c :: p.1, p.2)
      else ([], c :: cs)

/-- Numeric value of a list of decimal digits. -/
def digitsToNat (ds : List Char) : Nat :=
  ds.foldl (fun acc c => acc * 10 + (c.toNat - 48)) 0

/-- Parse one octet (one to three digits, no leading zero, at most 255),
returning its value and the remaining characters; modelled from Rust std's
`Ipv4Addr` group parsing. -/
def parseOctet (cs : List Char) : Option (Nat × List Char) :=
  let p := takeDigits 3 cs
  match p.1 with
  | [] => none
  | d :: ds =>
      if d = '0' && !ds.isEmpty then none
      else
        let v := digitsToNat (d :: ds)
        if v ≤ 255 then some (v, p.2) else none

/-- Consume a literal dot. -/
def expectDot : List Char → Option (List Char)
  | '.' :: cs => some cs
  | _ => none

/-- `Ipv4Addr::from_str` of Rust std: `a.b.c.d`, nothing left over. -/
def parseIpv4 (s : String) : Option Ipv4 :=
  match parseOctet s.data with
  | none => none
  | some (a, cs) =>
  match expectDot cs with
  | none => none
  | some cs =>
  match parseOctet cs with
  | none => none
  | some (b, cs) =>
  match expectDot cs with
  | none => none
  | some cs =>
  match parseOctet cs with
  | none => none
  | some (c, cs) =>
  match expectDot cs with
  | none => none
  | some cs =>
  match parseOctet cs with
  | none => none
  | some (d, cs) =>
  match cs with
  | [] => some ⟨a, b, c, d⟩
  | _ :: _ => none

/-- The closed service vocabulary (`AvailableService` of the source). -/
inductive AvailableService where
  | BareMetalServers
  | VirtualServers
  | PrivateCloud
deriving DecidableEq

/-- The extractor's error type (`ParseHtmlError` of the source); the Rust
`PingInvalid` also carries the opaque `AddrParseError`, which holds no data
beyond the fact of failure, so only the offending text is kept here. -/
inductive ParseHtmlError where
  | IdMissing
  | CityMissing
  | AttrElementInvalid
  | AvailableServiceUnknown
  | PingInvalid (s : String)
deriving DecidableEq

/-- The output record (`DataCenter` of the source). -/
structure DataCenter where
  id : String
  city : String
  available_services : List AvailableService
  standard_bare_metal_bandwidth : Option String
  ping : Option Ipv4
  test_download : Option String
  url : Option String
deriving DecidableEq

/-- The four mutable locals of the source's per-block loop. -/
structure Fields where
  available_services : List AvailableService
  standard_bare_metal_bandwidth : Option String
  ping : Option Ipv4
  test_download : Option String
deriving DecidableEq

/-- Initial per-block state: all fields empty. -/
def initFields : Fields :=
  ⟨[], none, none, none⟩

/-- The source's `match title` arms inside the "Available Services" case. -/
def serviceOfTitle (t : String) : Except ParseHtmlError AvailableService :=
  if t = "Bare Metal Servers" then .ok .BareMetalServers
  else if t = "Virtual Servers" then .ok .VirtualServers
  else if t = "Private Cloud" then .ok .PrivateCloud
  else .error .AvailableServiceUnknown

/-- Title-to-service map as a partial function (none when out of vocabulary). -/
def svcOpt (t : String) : Option AvailableService :=
  match serviceOfTitle t with
  | .ok s => some s
  | .error _ => none

/-- The source's loop over `value_element.select("a")` in the
"Available Services" arm: links without a `title` attribute are skipped,
a known title is pushed, an unknown one aborts with the error. -/
def parseServices : List Node → Except ParseHtmlError (List AvailableService)
  | [] => .ok []
  | a :: rest =>
      match getAttr a "title" with
      | none => parseServices rest
      | some t =>
          match serviceOfTitle t with
          | .error e => .error e
          | .ok s =>
              match parseServices rest with
              | .error e => .error e
              | .ok tl => .ok (s :: tl)

/-- The `title` attributes present on the link descendants of a value cell,
in document order. -/
def titlesOf (v : Node) : List String :=
  (aDescs v).filterMap (fun a => getAttr a "title")

/-- First link descendant's `href`, as in the source's "Test Download" arm:
`value_element.select("a").next().and_then(attr "href")`. -/
def firstHref (v : Node) : Option String :=
  (aDescs v).head?.bind (fun a => getAttr a "href")

/-- The label strings the source's `match head_element.inner_html()` singles
out, as an enumeration (the dispatch is by exact string equality). -/
inductive RowLabel where
  | services
  | networks
  | bandwidth
  | ping
  | certs
  | download
  | other
deriving DecidableEq

/-- Exact-match dispatch of the source on the label cell's inner html. -/
def labelOf (s : String) : RowLabel :=
  if s = "Available Services" then .services
  else if s = "Available Networks" then .networks
  else if s = "Standard Bare Metal Bandwidth" then .bandwidth
  else if s = "Ping/Trace Route" then .ping
  else if s = "Certifications" then .certs
  else if s = "Test Download" then .download
  else .other

/-- Body of the source's `match head_element.inner_html().as_str()`: apply
one labeled row's effect on the per-block state, given the dispatched label
and the row's value cell. -/
def applyRow (st : Fields) (l : RowLabel) (v : Node) : Except ParseHtmlError Fields :=
  match l with
  | .services =>
      match parseServices (aDescs v) with
      | .error e => .error e
      | .ok svcs =>
          .ok { st with available_services := st.available_services ++ svcs }
  | .networks => .ok st
  | .bandwidth =>
      if innerHtml v = "" then .ok st
      else .ok { st with standard_bare_metal_bandwidth := some (innerHtml v) }
  | .ping =>
      if innerHtml v = "-" then .ok st
      else if innerHtml v = "" then .ok st
      else
        match parseIpv4 (innerHtml v) with
        | none => .error (.PingInvalid (innerHtml v))
        | some a => .ok { st with ping := some a }
  | .certs => .ok st
  | .download =>
      if innerHtml v = "" then .ok st
      else
        match firstHref v with
        | none => .ok st
        | some u => .ok { st with test_download := some u }
  | .other => .ok st

/-- One iteration of the source's `for tr_element in ... select("table tr")`
loop: take the first three `td` descendants (label cell, ignored middle
cell, value cell), fail with `AttrElementInvalid` when one is missing or a
fourth exists, then dispatch on the label cell's inner html. -/
def processRow (st : Fields) (tr : Node) : Except ParseHtmlError Fields :=
  match tdsOf tr with
  | h :: _ :: v :: rest =>
      match rest with
      | [] => applyRow st (labelOf (innerHtml h)) v
      | _ :: _ => .error .AttrElementInvalid
  | _ => .error .AttrElementInvalid

/-- The source's row loop over a block, threading the mutable field state
and aborting at the first row error (the `?` operator). -/
def processRows (st : Fields) : List Node → Except ParseHtmlError Fields
  | [] => .ok st
  | tr :: trs =>
      match processRow st tr with
      | .error e => .error e
      | .ok st2 => processRows st2 trs

/-- The source's `.popover-container a` step: first match's `href`. -/
def urlOf (b : Node) : Option String :=
  (popAOf b).head?.bind (fun a => getAttr a "href")

/-- Per-block extraction: the body of the source's
`for location_element in document.select("div.location")` loop — id
attribute (else `IdMissing`), first `.dc-city` inner html (else
`CityMissing`), the row loop, then the detail url. -/
def extractDC (b : Node) : Except ParseHtmlError DataCenter :=
  match getAttr b "id" with
  | none => .error .IdMissing
  | some id =>
  match (cityElemsOf b).head? with
  | none => .error .CityMissing
  | some ce =>
  match processRows initFields (trsOf b) with
  | .error e => .error e
  | .ok f =>
      .ok ⟨id, innerHtml ce, f.available_services, f.standard_bare_metal_bandwidth,
           f.ping, f.test_download, urlOf b⟩

/-- The source's block loop: extract every block in document order, pushing
each record, aborting at the first error (the `?` operator). -/
def extractAll : List Node → Except ParseHtmlError (List DataCenter)
  | [] => .ok []
  | b :: bs =>
      match extractDC b with
      | .error e => .error e
      | .ok dc =>
          match extractAll bs with
          | .error e => .error e
          | .ok l => .ok (dc :: l)

/-- `parse_html` of the source, over the adapter-parsed document tree. -/
def parse_html (d : Node) : Except ParseHtmlError (List DataCenter) :=
  extractAll (locationsOf d)

/-!
Helper lemmas about the service-title mapping and the service loop.
-/

/-- Only error the title map can produce is the unknown-service error. -/
theorem serviceOfTitle_error (t : String) (e : ParseHtmlError)
    (h : serviceOfTitle t = .error e) : e = .AvailableServiceUnknown := by
  unfold serviceOfTitle at h
  split at h
  · exact absurd h (by simp)
  · split at h
    · exact absurd h (by simp)
    · split at h
      · exact absurd h (by simp)
      · injection h with h2
        exact h2.symm

/-- Case analysis of the title map against its partial-function form. -/
theorem svcOpt_cases (t : String) :
    (serviceOfTitle t = .error .AvailableServiceUnknown ∧ svcOpt t = none) ∨
      (∃ s, serviceOfTitle t = .ok s ∧ svcOpt t = some s) := by
  unfold svcOpt
  cases h : serviceOfTitle t with
  | ok s => exact Or.inr ⟨s, rfl, rfl⟩
  | error e =>
      have he := serviceOfTitle_error t e h
      subst he
      exact Or.inl ⟨rfl, rfl⟩

/-- When every present title is in the vocabulary, the service loop succeeds
and returns exactly the titles' images, in order, duplicates kept. -/
theorem parseServices_ok (l : List Node)
    (h : ∀ t ∈ l.filterMap (fun a => getAttr a "title"), (svcOpt t).isSome = true) :
    parseServices l = .ok ((l.filterMap (fun a => getAttr a "title")).filterMap svcOpt) := by
  induction l with
  | nil => rfl
  | cons a rest ih =>
      cases hat : getAttr a "title" with
      | none =>
          have h2 : ∀ t ∈ rest.filterMap (fun a => getAttr a "title"),
              (svcOpt t).isSome = true := by
            intro t ht
            exact h t (by simp [List.filterMap_cons, hat, ht])
          simp only [parseServices, hat]
          rw [ih h2]
          simp [List.filterMap_cons, hat]
      | some t =>
          have hmem : t ∈ (a :: rest).filterMap (fun a => getAttr a "title") := by
            simp [List.filterMap_cons, hat]
          rcases svcOpt_cases t with ⟨_, hnone⟩ | ⟨s, hok, hsome⟩
          · have hc := h t hmem
            rw [hnone] at hc
            exact absurd hc (by simp)
          · have h2 : ∀ t2 ∈ rest.filterMap (fun a => getAttr a "title"),
                (svcOpt t2).isSome = true := by
              intro t2 ht2
              exact h t2 (by simp [List.filterMap_cons, hat, ht2])
            simp only [parseServices, hat, hok]
            rw [ih h2]
            simp [List.filterMap_cons, hat, hsome]

/-- When some present title is out of vocabulary, the service loop fails
with the unknown-service error. -/
theorem parseServices_err (l : List Node)
    (h : ∃ t ∈ l.filterMap (fun a => getAttr a "title"), svcOpt t = none) :
    parseServices l = .error .AvailableServiceUnknown := by
  induction l with
  | nil => simp at h
  | cons a rest ih =>
      cases hat : getAttr a "title" with
      | none =>
          have h2 : ∃ t ∈ rest.filterMap (fun a => getAttr a "title"), svcOpt t = none := by
            rcases h with ⟨t, ht, htn⟩
            refine ⟨t, ?_, htn⟩
            simpa [List.filterMap_cons, hat] using ht
          simp only [parseServices, hat]
          exact ih h2
      | some t =>
          rcases svcOpt_cases t with ⟨herr, _⟩ | ⟨s, hok, hsome⟩
          · simp only [parseServices, hat, herr]
          · have h2 : ∃ t2 ∈ rest.filterMap (fun a => getAttr a "title"), svcOpt t2 = none := by
              rcases h with ⟨t2, ht2, ht2n⟩
              rcases (by simpa [List.filterMap_cons, hat] using ht2 :
                  t2 = t ∨ t2 ∈ rest.filterMap (fun a => getAttr a "title")) with heq | hin
              · subst heq
                rw [hsome] at ht2n
                exact absurd ht2n (by simp)
              · exact ⟨t2, hin, ht2n⟩
            simp only [parseServices, hat, hok, ih h2]

/-- Only error the service loop can produce is the unknown-service error. -/
theorem parseServices_error_eq (l : List Node) (e : ParseHtmlError)
    (h : parseServices l = .error e) : e = .AvailableServiceUnknown := by
  induction l with
  | nil => simp [parseServices] at h
  | cons a rest ih =>
      cases hat : getAttr a "title" with
      | none =>
          simp only [parseServices, hat] at h
          exact ih h
      | some t =>
          simp only [parseServices, hat] at h
          cases hst : serviceOfTitle t with
          | error e2 =>
              simp only [hst] at h
              injection h with h4
              rw [← h4]
              exact serviceOfTitle_error t e2 hst
          | ok s =>
              simp only [hst] at h
              cases hrest : parseServices rest with
              | error e2 =>
                  simp only [hrest] at h
                  injection h with h4
                  subst h4
                  exact ih hrest
              | ok tl =>
                  simp only [hrest] at h
                  exact absurd h (by simp)

/-!
Helper lemmas about the row processor.
-/

/-- Label dispatch never produces the row-shape error: once three data cells
are in hand, every failure is an unknown service or an invalid ping. -/
theorem applyRow_ne_shape (st : Fields) (l : RowLabel) (v : Node) :
    applyRow st l v ≠ Except.error .AttrElementInvalid := by
  cases l <;> simp only [applyRow]
  case services =>
      cases hps : parseServices (aDescs v) with
      | error e =>
          have he := parseServices_error_eq _ _ hps
          subst he
          simp
      | ok svcs => simp
  case networks => simp
  case bandwidth => split <;> simp
  case ping =>
      split
      · simp
      · cases parseIpv4 (innerHtml v) <;> split <;> simp
  case certs => simp
  case download =>
      split
      · simp
      · cases firstHref v <;> simp
  case other => simp

/-- Row processing of a well-shaped row is the label dispatch. -/
theorem processRow_three (st : Fields) (tr h m v : Node)
    (htds : tdsOf tr = [h, m, v]) :
    processRow st tr = applyRow st (labelOf (innerHtml h)) v := by
  simp only [processRow, htds]

/-- Claim C2: for every table row (and any per-block state), row processing
fails with the row-shape error `AttrElementInvalid` exactly when the row
does not have exactly three `td` descendants; a row with exactly three data
cells never triggers this error. -/
theorem claim2_row_shape (st : Fields) (tr : Node) :
    processRow st tr = .error .AttrElementInvalid ↔ (tdsOf tr).length ≠ 3 := by
  simp only [processRow]
  cases htds : tdsOf tr with
  | nil => simp
  | cons a t1 =>
      cases t1 with
      | nil => simp
      | cons b t2 =>
          cases t2 with
          | nil => simp
          | cons c t3 =>
              cases t3 with
              | nil => simpa using applyRow_ne_shape st (labelOf (innerHtml a)) c
              | cons d t4 =>
                  simp only [List.length_cons]
                  constructor
                  · intro _
                    omega
                  · intro _
                    trivial

/-- Behaviour of a well-shaped "Ping/Trace Route" row: keep on the
placeholder or empty text, set on a parsed address, fail with the raw text
otherwise. -/
theorem ping_row_sem (st : Fields) (tr h m v : Node)
    (htds : tdsOf tr = [h, m, v]) (hl : innerHtml h = "Ping/Trace Route") :
    ((innerHtml v = "-" ∨ innerHtml v = "") → processRow st tr = .ok st) ∧
    (∀ a, parseIpv4 (innerHtml v) = some a →
        processRow st tr = .ok { st with ping := some a }) ∧
    (∀ s, innerHtml v = s → s ≠ "-" → s ≠ "" → parseIpv4 s = none →
        processRow st tr = .error (.PingInvalid s)) := by
  rw [processRow_three st tr h m v htds, hl]
  have hlab : labelOf "Ping/Trace Route" = RowLabel.ping := by decide
  rw [hlab]
  refine ⟨?_, ?_, ?_⟩
  · rintro (hc | hc) <;> simp [applyRow, hc]
  · intro a ha
    have h1 : innerHtml v ≠ "-" := by
      intro he
      rw [he, show parseIpv4 "-" = none from rfl] at ha
      exact Option.noConfusion ha
    have h2 : innerHtml v ≠ "" := by
      intro he
      rw [he, show parseIpv4 "" = none from rfl] at ha
      exact Option.noConfusion ha
    simp only [applyRow]
    rw [if_neg h1, if_neg h2, ha]
  · intro s hs h1 h2 hnone
    subst hs
    simp only [applyRow]
    rw [if_neg h1, if_neg h2, hnone]

/-- Claim C3: in a well-shaped row whose label cell reads exactly
"Ping/Trace Route", a value text of "-" or "" leaves the ping field as it
was (absent when it was absent), a value text that parses as an IPv4
address sets the ping field to that address, and any other value text
aborts with `PingInvalid` carrying the offending raw text. -/
theorem claim3_ping_row (st : Fields) (tr h m v : Node)
    (htds : tdsOf tr = [h, m, v]) (hl : innerHtml h = "Ping/Trace Route") :
    ((innerHtml v = "-" ∨ innerHtml v = "") → processRow st tr = .ok st) ∧
    (∀ a, parseIpv4 (innerHtml v) = some a →
        processRow st tr = .ok { st with ping := some a }) ∧
    (∀ s, innerHtml v = s → s ≠ "-" → s ≠ "" → parseIpv4 s = none →
        processRow st tr = .error (.PingInvalid s)) :=
  ping_row_sem st tr h m v htds hl

/-- Claim C5: in a well-shaped row whose label cell reads exactly
"Available Services", the title map is exactly the closed three-entry
vocabulary; when every present title is in the vocabulary the titles'
images are appended to the accumulated services in document order
(duplicates kept, untitled links skipped, since `titlesOf` keeps only the
present titles), and any present out-of-vocabulary title aborts with
`AvailableServiceUnknown`. -/
theorem claim5_services_row (st : Fields) (tr h m v : Node)
    (htds : tdsOf tr = [h, m, v]) (hl : innerHtml h = "Available Services") :
    (svcOpt "Bare Metal Servers" = some .BareMetalServers ∧
     svcOpt "Virtual Servers" = some .VirtualServers ∧
     svcOpt "Private Cloud" = some .PrivateCloud ∧
     ∀ t, t ≠ "Bare Metal Servers" → t ≠ "Virtual Servers" → t ≠ "Private Cloud" →
        svcOpt t = none) ∧
    ((∀ t ∈ titlesOf v, (svcOpt t).isSome = true) →
        processRow st tr =
          .ok { st with available_services :=
                  st.available_services ++ (titlesOf v).filterMap svcOpt }) ∧
    ((∃ t ∈ titlesOf v, svcOpt t = none) →
        processRow st tr = .error .AvailableServiceUnknown) := by
  have hlab : labelOf "Available Services" = RowLabel.services := by decide
  refine ⟨⟨rfl, rfl, rfl, ?_⟩, ?_, ?_⟩
  · intro t h1 h2 h3
    unfold svcOpt serviceOfTitle
    rw [if_neg h1, if_neg h2, if_neg h3]
  · intro hall
    rw [processRow_three st tr h m v htds, hl, hlab]
    simp only [applyRow]
    rw [parseServices_ok (aDescs v) (by simpa [titlesOf] using hall)]
    simp [titlesOf]
  · intro hbad
    rw [processRow_three st tr h m v htds, hl, hlab]
    simp only [applyRow]
    rw [parseServices_err (aDescs v) (by simpa [titlesOf] using hbad)]

/-- Claim C7: in a well-shaped row whose label cell reads exactly
"Test Download", an empty value text leaves the field as it was; a
non-empty value text whose cell has no link descendant, or whose first
link descendant lacks an `href` attribute (both are the `firstHref v =
none` case), also leaves the field untouched without error; otherwise the
field is set to the first link's `href` value. -/
theorem claim7_download_row (st : Fields) (tr h m v : Node)
    (htds : tdsOf tr = [h, m, v]) (hl : innerHtml h = "Test Download") :
    (aDescs v = [] → firstHref v = none) ∧
    (innerHtml v = "" → processRow st tr = .ok st) ∧
    (innerHtml v ≠ "" → firstHref v = none → processRow st tr = .ok st) ∧
    (∀ u, innerHtml v ≠ "" → firstHref v = some u →
        processRow st tr = .ok { st with test_download := some u }) := by
  rw [processRow_three st tr h m v htds, hl]
  have hlab : labelOf "Test Download" = RowLabel.download := by decide
  rw [hlab]
  refine ⟨?_, ?_, ?_, ?_⟩
  · intro ha
    simp [firstHref, ha]
  · intro he
    simp [applyRow, he]
  · intro he hn
    simp only [applyRow]
    rw [if_neg he, hn]
  · intro u he hu
    simp only [applyRow]
    rw [if_neg he, hu]

/-- Claim C10: per-row field-update policy within one block. A
"Standard Bare Metal Bandwidth" row overwrites the field with its non-empty
value text and keeps the previous value when the text is empty; a
"Ping/Trace Route" row overwrites on a parsed address and keeps the
previous value on "-" or ""; a "Test Download" row overwrites on a
non-empty text with an extractable first-link `href` and keeps the previous
value otherwise; an "Available Services" row appends its services to the
accumulated list. The last conjunct shows that the row loop feeds each
row's output state to the following rows, so across rows of one block the
scalar fields follow last-non-empty-wins and the services accumulate. -/
theorem claim10_update_policy (st : Fields) (tr h m v : Node)
    (htds : tdsOf tr = [h, m, v]) :
    (innerHtml h = "Standard Bare Metal Bandwidth" →
        processRow st tr =
          .ok (if innerHtml v = "" then st
               else { st with standard_bare_metal_bandwidth := some (innerHtml v) })) ∧
    (innerHtml h = "Ping/Trace Route" → (innerHtml v = "-" ∨ innerHtml v = "") →
        processRow st tr = .ok st) ∧
    (innerHtml h = "Ping/Trace Route" → ∀ a, parseIpv4 (innerHtml v) = some a →
        processRow st tr = .ok { st with ping := some a }) ∧
    (innerHtml h = "Test Download" →
        processRow st tr =
          .ok (if innerHtml v = "" then st
               else
                 match firstHref v with
                 | none => st
                 | some u => { st with test_download := some u })) ∧
    (innerHtml h = "Available Services" → ∀ svcs,
        parseServices (aDescs v) = .ok svcs →
        processRow st tr =
          .ok { st with available_services := st.available_services ++ svcs }) ∧
    (∀ st2 trs, processRow st tr = .ok st2 →
        processRows st (tr :: trs) = processRows st2 trs) := by
  refine ⟨?_, ?_, ?_, ?_, ?_, ?_⟩
  · intro hl
    rw [processRow_three st tr h m v htds, hl,
        show labelOf "Standard Bare Metal Bandwidth" = RowLabel.bandwidth from by decide]
    simp only [applyRow]
    split <;> simp
  · intro hl hc
    exact (ping_row_sem st tr h m v htds hl).1 hc
  · intro hl a ha
    exact (ping_row_sem st tr h m v htds hl).2.1 a ha
  · intro hl
    rw [processRow_three st tr h m v htds, hl,
        show labelOf "Test Download" = RowLabel.download from by decide]
    simp only [applyRow]
    split
    · rfl
    · cases firstHref v <;> simp
  · intro hl svcs hsv
    rw [processRow_three st tr h m v htds, hl,
        show labelOf "Available Services" = RowLabel.services from by decide]
    simp only [applyRow]
    rw [hsv]
  · intro st2 trs hok
    simp only [processRows, hok]

/-!
Spec-side first-error computation, for the propagation-policy claim.
-/

/-- First present error in a list of per-item error options, in order. -/
def firstSome (l : List (Option ParseHtmlError)) : Option ParseHtmlError :=
  (l.filterMap id).head?

/-- Modelled from the spec: the error one row yields, if any — the 3-cell
shape check, then per-label validation (unknown service title, invalid ping
text); all other labels are error-free. -/
def specRowError (tr : Node) : Option ParseHtmlError :=
  match tdsOf tr with
  | h :: _ :: v :: rest =>
      match rest with
      | [] =>
          match labelOf (innerHtml h) with
          | .services =>
              if ∀ t ∈ titlesOf v, (svcOpt t).isSome = true then none
              else some .AvailableServiceUnknown
          | .ping =>
              if innerHtml v = "-" then none
              else if innerHtml v = "" then none
              else
                match parseIpv4 (innerHtml v) with
                | some _ => none
                | none => some (.PingInvalid (innerHtml v))
          | _ => none
      | _ :: _ => some .AttrElementInvalid
  | _ => some .AttrElementInvalid

/-- Modelled from the spec: the first error of a block in processing order —
the identifier check, then the city check, then the rows in document
order. -/
def specBlockError (b : Node) : Option ParseHtmlError :=
  match getAttr b "id" with
  | none => some .IdMissing
  | some _ =>
  match (cityElemsOf b).head? with
  | none => some .CityMissing
  | some _ => firstSome ((trsOf b).map specRowError)

/-- Modelled from the spec: the first error of the whole document, blocks
in document order. -/
def specFirstError (d : Node) : Option ParseHtmlError :=
  firstSome ((locationsOf d).map specBlockError)

theorem firstSome_cons_some (e : ParseHtmlError) (l : List (Option ParseHtmlError)) :
    firstSome (some e :: l) = some e := by
  simp [firstSome, List.filterMap_cons]

theorem firstSome_cons_none (l : List (Option ParseHtmlError)) :
    firstSome (none :: l) = firstSome l := by
  simp [firstSome, List.filterMap_cons]

/-- Row processing errs with `e` exactly when the spec-side row error is
`e`, independently of the accumulated state. -/
theorem processRow_error_iff (st : Fields) (tr : Node) (e : ParseHtmlError) :
    processRow st tr = .error e ↔ specRowError tr = some e := by
  cases htds : tdsOf tr with
  | nil => simp [processRow, specRowError, htds]
  | cons a t1 =>
    cases t1 with
    | nil => simp [processRow, specRowError, htds]
    | cons b t2 =>
      cases t2 with
      | nil => simp [processRow, specRowError, htds]
      | cons c t3 =>
        cases t3 with
        | cons d t4 => simp [processRow, specRowError, htds]
        | nil =>
            rw [processRow_three st tr a b c htds]
            simp only [specRowError, htds]
            cases hlab : labelOf (innerHtml a) with
            | services =>
                simp only [applyRow]
                by_cases hc : ∀ t ∈ titlesOf c, (svcOpt t).isSome = true
                · rw [parseServices_ok (aDescs c) (by simpa [titlesOf] using hc)]
                  rw [if_pos hc]
                  simp
                · have hbad : ∃ t ∈ titlesOf c, svcOpt t = none := by
                    push_neg at hc
                    rcases hc with ⟨t, ht, htn⟩
                    refine ⟨t, ht, ?_⟩
                    cases hsv : svcOpt t with
                    | none => rfl
                    | some s => rw [hsv] at htn; simp at htn
                  rw [parseServices_err (aDescs c) (by simpa [titlesOf] using hbad)]
                  rw [if_neg hc]
                  constructor
                  · intro hh
                    injection hh with hh2
                    rw [hh2]
                  · intro hh
                    injection hh with hh2
                    rw [hh2]
            | ping =>
                simp only [applyRow]
                by_cases h1 : innerHtml c = "-"
                · simp [h1]
                · by_cases h2 : innerHtml c = ""
                  · simp [h1, h2]
                  · rw [if_neg h1, if_neg h2, if_neg h1, if_neg h2]
                    cases hip : parseIpv4 (innerHtml c) with
                    | none =>
                        constructor
                        · intro hh
                          injection hh with hh2
                          rw [hh2]
                        · intro hh
                          injection hh with hh2
                          rw [hh2]
                    | some a2 => simp
            | networks => simp [applyRow]
            | bandwidth =>
                simp only [applyRow]
                split <;> simp
            | certs => simp [applyRow]
            | download =>
                simp only [applyRow]
                split
                · simp
                · cases firstHref c <;> simp
            | other => simp [applyRow]

/-- The row loop errs with `e` exactly when some row has a spec-side error
and the first such row's error is `e`. -/
theorem processRows_error_iff (trs : List Node) :
    ∀ (st : Fields) (e : ParseHtmlError),
      processRows st trs = .error e ↔ firstSome (trs.map specRowError) = some e := by
  induction trs with
  | nil =>
      intro st e
      simp [processRows, firstSome]
  | cons tr rest ih =>
      intro st e
      cases hre : specRowError tr with
      | some e2 =>
          have hpe : processRow st tr = .error e2 := (processRow_error_iff st tr e2).mpr hre
          rw [List.map_cons, hre, firstSome_cons_some]
          simp only [processRows, hpe]
          constructor
          · intro hh
            injection hh with hh2
            rw [hh2]
          · intro hh
            injection hh with hh2
            rw [hh2]
      | none =>
          cases hpr : processRow st tr with
          | error e2 =>
              have hco := (processRow_error_iff st tr e2).mp hpr
              rw [hre] at hco
              exact absurd hco (by simp)
          | ok st2 =>
              rw [List.map_cons, hre, firstSome_cons_none]
              simp only [processRows, hpr]
              exact ih st2 e

/-- Block extraction errs with `e` exactly when the spec-side block error is
`e` (identifier, then city, then rows). -/
theorem extractDC_error_iff (b : Node) (e : ParseHtmlError) :
    extractDC b = .error e ↔ specBlockError b = some e := by
  unfold extractDC specBlockError
  cases getAttr b "id" with
  | none => simp
  | some id =>
      cases (cityElemsOf b).head? with
      | none => simp
      | some ce =>
          cases hpr : processRows initFields (trsOf b) with
          | error e2 =>
              have hfs := (processRows_error_iff (trsOf b) initFields e2).mp hpr
              rw [hfs]
              constructor
              · intro hh
                injection hh with hh2
                rw [hh2]
              · intro hh
                injection hh with hh2
                rw [hh2]
          | ok f =>
              constructor
              · intro hh
                exact absurd hh (by simp)
              · intro hfs
                have hco := (processRows_error_iff (trsOf b) initFields e).mpr hfs
                rw [hco] at hpr
                exact Except.noConfusion hpr

/-- The block loop errs with `e` exactly when some block has a spec-side
error and the first such block's error is `e`. -/
theorem extractAll_error_iff (bs : List Node) (e : ParseHtmlError) :
    extractAll bs = .error e ↔ firstSome (bs.map specBlockError) = some e := by
  induction bs with
  | nil => simp [extractAll, firstSome]
  | cons b rest ih =>
      cases hbe : specBlockError b with
      | some e2 =>
          have hdc : extractDC b = .error e2 := (extractDC_error_iff b e2).mpr hbe
          rw [List.map_cons, hbe, firstSome_cons_some]
          simp only [extractAll, hdc]
          constructor
          · intro hh
            injection hh with hh2
            rw [hh2]
          · intro hh
            injection hh with hh2
            rw [hh2]
      | none =>
          cases hdc : extractDC b with
          | error e2 =>
              have hco := (extractDC_error_iff b e2).mp hdc
              rw [hbe] at hco
              exact absurd hco (by simp)
          | ok dc =>
              rw [List.map_cons, hbe, firstSome_cons_none, ← ih]
              simp only [extractAll, hdc]
              cases hre : extractAll rest with
              | error e2 => simp
              | ok l => simp

/-- Claim C6: whenever `parse_html` returns an error, no records are
delivered (the result is the error alone), and the error is the first one
in processing order — blocks in document order, and within a block the id
check, then the city check, then the rows in document order — as computed
by the spec-side `specFirstError`. -/
theorem claim6_fail_fast (d : Node) (e : ParseHtmlError)
    (h : parse_html d = .error e) :
    (∀ l, parse_html d ≠ .ok l) ∧ specFirstError d = some e := by
  constructor
  · intro l hl
    rw [h] at hl
    exact Except.noConfusion hl
  · exact (extractAll_error_iff (locationsOf d) e).mp h

/-!
Success-side structure of the block loop.
-/

/-- A successful block loop yields one record per block, in order: the
output has the blocks' length and the i-th record is the i-th block's
extraction. -/
theorem extractAll_ok (bs : List Node) :
    ∀ l, extractAll bs = .ok l →
      l.length = bs.length ∧
        ∀ i (h1 : i < bs.length) (h2 : i < l.length),
          extractDC (bs.get ⟨i, h1⟩) = .ok (l.get ⟨i, h2⟩) := by
  induction bs with
  | nil =>
      intro l hl
      simp only [extractAll] at hl
      injection hl with hl2
      subst hl2
      exact ⟨rfl, fun i h1 _ => absurd h1 (by simp)⟩
  | cons b rest ih =>
      intro l hl
      simp only [extractAll] at hl
      cases hdc : extractDC b with
      | error e => rw [hdc] at hl; exact Except.noConfusion hl
      | ok dc =>
          rw [hdc] at hl
          cases hre : extractAll rest with
          | error e => rw [hre] at hl; exact Except.noConfusion hl
          | ok l2 =>
              rw [hre] at hl
              injection hl with hl2
              subst hl2
              rcases ih l2 hre with ⟨hlen, hget⟩
              refine ⟨by simp [hlen], ?_⟩
              intro i h1 h2
              cases i with
              | zero => simpa using hdc
              | succ j =>
                  simp only [List.get_cons_succ]
                  exact hget j (by simpa using h1) (by simpa using h2)

/-- A successful block extraction reads the record's id from the block's
`id` attribute and the city from the first city element's inner markup. -/
theorem extractDC_ok_struct (b : Node) (dc : DataCenter)
    (h : extractDC b = .ok dc) :
    getAttr b "id" = some dc.id ∧
      ((cityElemsOf b).head?).map innerHtml = some dc.city := by
  unfold extractDC at h
  cases hid : getAttr b "id" with
  | none => rw [hid] at h; exact Except.noConfusion h
  | some id =>
      rw [hid] at h
      cases hce : (cityElemsOf b).head? with
      | none => rw [hce] at h; exact Except.noConfusion h
      | some ce =>
          rw [hce] at h
          cases hpr : processRows initFields (trsOf b) with
          | error e => rw [hpr] at h; exact Except.noConfusion h
          | ok f =>
              rw [hpr] at h
              injection h with h2
              subst h2
              exact ⟨rfl, rfl⟩

/-!
Concrete documents and rows used by counterexamples and witnesses.
-/

/-- A `td` cell with the given children. -/
def tdCell (c : List Node) : Node :=
  .elem "td" [] c

/-- A three-cell row: label cell, empty middle cell, value cell. -/
def rowOf (label : String) (valChildren : List Node) : Node :=
  .elem "tr" [] [tdCell [.text label], tdCell [], tdCell valChildren]

/-- A complete location block like the repository's London test fixture. -/
def blockLondon : Node :=
  .elem "div" [("class", "location"), ("id", "london")] [
    .elem "h3" [("class", "dc-city")] [.text "London"],
    .elem "table" [] [
      rowOf "Available Services" [
        .elem "a" [("title", "Bare Metal Servers")] [],
        .elem "a" [] [.text "untitled"],
        .elem "a" [("title", "Virtual Servers")] []],
      rowOf "Standard Bare Metal Bandwidth" [.text "100TB"],
      rowOf "Ping/Trace Route" [.text "82.163.78.28"],
      rowOf "Test Download" [
        .elem "a" [("href", "http://82.163.78.28/speedtest.256mb")] [.text "dl"]]],
    .elem "div" [("class", "popover-container")] [
      .elem "a" [("href", "https://info.thghosting.com/us/data-center/london")] []]]

/-- A document holding the single London block. -/
def docLondon : Node :=
  .elem "html" [] [blockLondon]

/-- The record the London block extracts to. -/
def dcLondon : DataCenter :=
  ⟨"london", "London", [.BareMetalServers, .VirtualServers], some "100TB",
   some ⟨82, 163, 78, 28⟩, some "http://82.163.78.28/speedtest.256mb",
   some "https://info.thghosting.com/us/data-center/london"⟩

/-- A document whose only location-classed element is a `span`, not a `div`. -/
def docSpan : Node :=
  .elem "html" [] [.elem "span" [("class", "location")] []]

/-- A location block with an empty `id` attribute and an empty city element. -/
def blockDup : Node :=
  .elem "div" [("class", "location"), ("id", "")] [.elem "p" [("class", "dc-city")] []]

/-- A document with two identical degenerate blocks. -/
def docDup : Node :=
  .elem "html" [] [blockDup, blockDup]

/-- The degenerate record both blocks of `docDup` extract to. -/
def dcDup : DataCenter :=
  ⟨"", "", [], none, none, none, none⟩

/-- A document with no location blocks at all. -/
def docPlain : Node :=
  .elem "html" [] [.text "no locations here"]

/-- A location block lacking its `id` attribute (and holding a malformed
one-cell row, which the id check precedes). -/
def blockNoId : Node :=
  .elem "div" [("class", "location")] [
    .elem "p" [("class", "dc-city")] [.text "X"],
    .elem "table" [] [.elem "tr" [] [tdCell []]]]

/-- A document holding the single id-less block. -/
def docNoId : Node :=
  .elem "html" [] [blockNoId]

/-- Rows exercising the ping arm. -/
def rowPingDash : Node := rowOf "Ping/Trace Route" [.text "-"]

/-- A ping row with a well-formed address. -/
def rowPingGood : Node := rowOf "Ping/Trace Route" [.text "82.163.78.28"]

/-- A ping row with unparseable text. -/
def rowPingBad : Node := rowOf "Ping/Trace Route" [.text "not-an-ip"]

/-- A services row: titled link, untitled link, titled link. -/
def rowSvc : Node :=
  rowOf "Available Services" [
    .elem "a" [("title", "Bare Metal Servers")] [],
    .elem "a" [] [.text "untitled"],
    .elem "a" [("title", "Virtual Servers")] []]

/-- A services row with an out-of-vocabulary title. -/
def rowSvcBad : Node :=
  rowOf "Available Services" [.elem "a" [("title", "Wrong")] []]

/-- A download row with a linked value. -/
def rowDl : Node :=
  rowOf "Test Download" [.elem "a" [("href", "http://x/y")] [.text "dl"]]

/-- A download row with non-empty but unlinked text. -/
def rowDlNoLink : Node := rowOf "Test Download" [.text "plain"]

/-- A download row with an empty value cell. -/
def rowDlEmpty : Node := rowOf "Test Download" []

/-- A bandwidth row with a non-empty value. -/
def rowBw : Node := rowOf "Standard Bare Metal Bandwidth" [.text "100TB"]

/-- A bandwidth row with an empty value. -/
def rowBwEmpty : Node := rowOf "Standard Bare Metal Bandwidth" []

/-- A state in which every field is already populated. -/
def stPrev : Fields :=
  ⟨[.PrivateCloud], some "50TB", some ⟨1, 2, 3, 4⟩, some "old"⟩

/-!
The claims about the whole extraction.
-/

/-- Modelled from the spec: a location block is "an element carrying a
`location` class" — the spec's pattern does not restrict the tag name. -/
def specLocationBlocks (d : Node) : List Node :=
  collectD (fun _ => true) (fun n => hasClass "location" n) true d

/-- Claim C1 counterexample: a document whose only location-classed element
is a `span` parses successfully to zero records, while the claim's pattern
("an element with class location") matches once — the code's selector is
`div.location`, so non-`div` elements with the class yield no record. -/
theorem claim1_counterexample :
    parse_html docSpan = .ok [] ∧ (specLocationBlocks docSpan).length = 1 :=
  ⟨rfl, rfl⟩

/-- Claim C1 (amended: the location-block pattern is a `div` element with
class `location`, as in the code's `div.location` selector): a successful
call returns exactly one record per matching block, in document order, each
record being its block's extraction — none added or dropped. -/
theorem claim1_blocks_amended (d : Node) (l : List DataCenter)
    (h : parse_html d = .ok l) :
    l.length = (locationsOf d).length ∧
      ∀ i (h1 : i < (locationsOf d).length) (h2 : i < l.length),
        extractDC ((locationsOf d).get ⟨i, h1⟩) = .ok (l.get ⟨i, h2⟩) := by
  rcases extractAll_ok (locationsOf d) l h with ⟨hlen, hget⟩
  exact ⟨hlen, fun i h1 h2 => hget i h1 h2⟩

theorem claim1_blocks_amended_witness :
    ([dcLondon].length = (locationsOf docLondon).length) ∧
      extractDC blockLondon = .ok dcLondon := by
  have h := claim1_blocks_amended docLondon [dcLondon] rfl
  exact ⟨h.1, h.2 0 (by decide) (by decide)⟩

/-- Claim C4 counterexample: a document with two location blocks, each with
an empty `id` attribute and an empty city element, parses successfully to
two records whose ids are both "" — so ids can be empty, cities can be
empty, and ids need not be pairwise distinct. -/
theorem claim4_counterexample :
    parse_html docDup = .ok [dcDup, dcDup] ∧ dcDup.id = "" ∧ dcDup.city = "" :=
  ⟨rfl, rfl, rfl⟩

/-- Claim C4 (amended: a successful extraction only guarantees presence —
each record's id is the verbatim value of its block's `id` attribute and
its city is the inner markup of the block's first city element; neither
non-emptiness nor uniqueness of ids is enforced). -/
theorem claim4_id_city_amended (d : Node) (l : List DataCenter)
    (h : parse_html d = .ok l) :
    ∀ i (h1 : i < (locationsOf d).length) (h2 : i < l.length),
      getAttr ((locationsOf d).get ⟨i, h1⟩) "id" = some ((l.get ⟨i, h2⟩).id) ∧
        ((cityElemsOf ((locationsOf d).get ⟨i, h1⟩)).head?).map innerHtml =
          some ((l.get ⟨i, h2⟩).city) := by
  intro i h1 h2
  exact extractDC_ok_struct _ _ ((extractAll_ok (locationsOf d) l h).2 i h1 h2)

theorem claim4_id_city_amended_witness :
    getAttr blockLondon "id" = some "london" ∧
      ((cityElemsOf blockLondon).head?).map innerHtml = some "London" := by
  exact claim4_id_city_amended docLondon [dcLondon] rfl 0 (by decide) (by decide)

/-- Claim C8: a document with zero location-block matches parses
successfully to the empty sequence. -/
theorem claim8_no_blocks (d : Node) (h : locationsOf d = []) :
    parse_html d = .ok [] := by
  unfold parse_html
  rw [h]
  rfl

theorem claim8_no_blocks_witness : parse_html docPlain = .ok [] :=
  claim8_no_blocks docPlain rfl

/-- Claim C9: the extractor is deterministic — it is a pure function of the
parsed document, so two calls on identical input yield identical results
(the same record sequence on success and the same error on failure). -/
theorem claim9_deterministic (d1 d2 : Node) (h : d1 = d2) :
    parse_html d1 = parse_html d2 := by
  rw [h]

theorem claim9_deterministic_witness : parse_html docLondon = parse_html docLondon :=
  claim9_deterministic docLondon docLondon rfl

theorem claim6_fail_fast_witness :
    parse_html docNoId ≠ .ok [] ∧ specFirstError docNoId = some .IdMissing := by
  have h := claim6_fail_fast docNoId .IdMissing rfl
  exact ⟨h.1 [], h.2⟩

theorem claim3_ping_row_witness :
    processRow initFields rowPingDash = .ok initFields ∧
    processRow initFields rowPingGood = .ok { initFields with ping := some ⟨82, 163, 78, 28⟩ } ∧
    processRow initFields rowPingBad = .error (.PingInvalid "not-an-ip") := by
  refine ⟨?_, ?_, ?_⟩
  · exact (claim3_ping_row initFields rowPingDash (tdCell [.text "Ping/Trace Route"])
      (tdCell []) (tdCell [.text "-"]) rfl rfl).1 (Or.inl rfl)
  · exact (claim3_ping_row initFields rowPingGood (tdCell [.text "Ping/Trace Route"])
      (tdCell []) (tdCell [.text "82.163.78.28"]) rfl rfl).2.1 ⟨82, 163, 78, 28⟩ rfl
  · exact (claim3_ping_row initFields rowPingBad (tdCell [.text "Ping/Trace Route"])
      (tdCell []) (tdCell [.text "not-an-ip"]) rfl rfl).2.2 "not-an-ip" rfl
      (by decide) (by decide) rfl

theorem claim5_services_row_witness :
    processRow initFields rowSvc =
      .ok { initFields with
              available_services := [.BareMetalServers, .VirtualServers] } ∧
    processRow initFields rowSvcBad = .error .AvailableServiceUnknown := by
  constructor
  · exact (claim5_services_row initFields rowSvc (tdCell [.text "Available Services"])
      (tdCell []) (tdCell [
        .elem "a" [("title", "Bare Metal Servers")] [],
        .elem "a" [] [.text "untitled"],
        .elem "a" [("title", "Virtual Servers")] []]) rfl rfl).2.1 (by decide)
  · exact (claim5_services_row initFields rowSvcBad (tdCell [.text "Available Services"])
      (tdCell []) (tdCell [.elem "a" [("title", "Wrong")] []]) rfl rfl).2.2
      ⟨"Wrong", by decide, rfl⟩

theorem claim7_download_row_witness :
    processRow initFields rowDlEmpty = .ok initFields ∧
    processRow initFields rowDlNoLink = .ok initFields ∧
    processRow initFields rowDl = .ok { initFields with test_download := some "http://x/y" } := by
  refine ⟨?_, ?_, ?_⟩
  · exact (claim7_download_row initFields rowDlEmpty (tdCell [.text "Test Download"])
      (tdCell []) (tdCell []) rfl rfl).2.1 rfl
  · exact (claim7_download_row initFields rowDlNoLink (tdCell [.text "Test Download"])
      (tdCell []) (tdCell [.text "plain"]) rfl rfl).2.2.1 (by decide) rfl
  · exact (claim7_download_row initFields rowDl (tdCell [.text "Test Download"])
      (tdCell []) (tdCell [.elem "a" [("href", "http://x/y")] [.text "dl"]]) rfl rfl).2.2.2
      "http://x/y" (by decide) rfl

theorem claim10_update_policy_witness :
    processRow stPrev rowBw =
      .ok { stPrev with standard_bare_metal_bandwidth := some "100TB" } ∧
    processRow stPrev rowBwEmpty = .ok stPrev ∧
    processRow stPrev rowPingDash = .ok stPrev ∧
    processRow stPrev rowPingGood = .ok { stPrev with ping := some ⟨82, 163, 78, 28⟩ } ∧
    processRow stPrev rowDl = .ok { stPrev with test_download := some "http://x/y" } ∧
    processRow stPrev rowSvc =
      .ok { stPrev with
              available_services :=
                [.PrivateCloud, .BareMetalServers, .VirtualServers] } ∧
    processRows stPrev [rowBw, rowBwEmpty] =
      processRows { stPrev with standard_bare_metal_bandwidth := some "100TB" } [rowBwEmpty] := by
  refine ⟨?_, ?_, ?_, ?_, ?_, ?_, ?_⟩
  · exact (claim10_update_policy stPrev rowBw (tdCell [.text "Standard Bare Metal Bandwidth"])
      (tdCell []) (tdCell [.text "100TB"]) rfl).1 rfl
  · exact (claim10_update_policy stPrev rowBwEmpty (tdCell [.text "Standard Bare Metal Bandwidth"])
      (tdCell []) (tdCell []) rfl).1 rfl
  · exact (claim10_update_policy stPrev rowPingDash (tdCell [.text "Ping/Trace Route"])
      (tdCell []) (tdCell [.text "-"]) rfl).2.1 rfl (Or.inl rfl)
  · exact (claim10_update_policy stPrev rowPingGood (tdCell [.text "Ping/Trace Route"])
      (tdCell []) (tdCell [.text "82.163.78.28"]) rfl).2.2.1 rfl ⟨82, 163, 78, 28⟩ rfl
  · exact (claim10_update_policy stPrev rowDl (tdCell [.text "Test Download"])
      (tdCell []) (tdCell [.elem "a" [("href", "http://x/y")] [.text "dl"]]) rfl).2.2.2.1 rfl
  · exact (claim10_update_policy stPrev rowSvc (tdCell [.text "Available Services"])
      (tdCell []) (tdCell [
        .elem "a" [("title", "Bare Metal Servers")] [],
        .elem "a" [] [.text "untitled"],
        .elem "a" [("title", "Virtual Servers")] []]) rfl).2.2.2.2.1 rfl
      [.BareMetalServers, .VirtualServers] rfl
  · exact (claim10_update_policy stPrev rowBw (tdCell [.text "Standard Bare Metal Bandwidth"])
      (tdCell []) (tdCell [.text "100TB"]) rfl).2.2.2.2.2
      { stPrev with standard_bare_metal_bandwidth := some "100TB" } [rowBwEmpty]
      ((claim10_update_policy stPrev rowBw (tdCell [.text "Standard Bare Metal Bandwidth"])
        (tdCell []) (tdCell [.text "100TB"]) rfl).1 rfl)
